import Mathlib

/-!
# Verification of the Multi-Agent AI System core logic

Shallow embedding of the query-routing, tabular-analysis and document-analysis
logic of the repository (backend/agents/orchestrator_agent.py,
data_intelligence_agent.py, research_assistant_agent.py), together with
theorems settling the specification claims.

Modelling conventions:
* Python dicts keyed by strings become association lists `List (String × _)`.
* Python ints are exact.  Python floats are binary64 values represented by
  the exact rational they denote: every float literal (0.1, 0.2, 0.3, 0.7,
  0.8) is the exact value of the nearest double, and every arithmetic
  operation on floats (`+`, `-`, `/`, `int * float`, `int / int`) is the
  exact operation followed by IEEE-754 rounding to nearest, ties to even,
  at 53 significand bits (`flRound` below, with `roundNat53` for the
  int-to-float conversions).  Comparisons between two floats, and between a
  Python int and a float, are exact in CPython, so they are exact rational
  comparisons here.  Overflow and subnormals are out of range for every
  quantity these agents compute (scores are sums of a few small terms, and
  a CPython sequence holds fewer than 2^63 elements, far below the double
  overflow threshold 2^1024).  A float literal that is only ever stored in
  a result, never compared or computed with (the fast-path confidence 0.9),
  is written as the decimal it denotes.
* External library calls (NLTK sentence tokenization, sentence-transformer
  embeddings, FAISS search) are treated as external collaborators: their
  outputs (a sentence list, a list of (score, index) hits) are inputs of the
  embedded functions.
* Fallible code returns `Option`/`Except`; uncaught Python exceptions are
  `Except.error` values that the caller's try/except wrapper converts into
  structured error results.
-/

-- Batteries marks the rational-number arithmetic irreducible; the concrete
-- evaluations below need it unfolded.
attribute [local semireducible] Rat.mul Rat.inv Rat.add Rat.sub

deriving instance DecidableEq for Except

namespace MultiAgent

/-- Python `min` on two rationals. -/
def pyMin (a b : ℚ) : ℚ := if a ≤ b then a else b

/-- Python `max` on two rationals. -/
def pyMax (a b : ℚ) : ℚ := if a ≤ b then b else a

/-- Python `abs` on a rational. -/
def pyAbs (a : ℚ) : ℚ := if a < 0 then -a else a

/-- Python `str.lower()` (ASCII model, as used on the ASCII keyword lexicons). -/
def pyLower (s : String) : String := String.mk (s.toList.map Char.toLower)

/-- Boolean test that `needle` is a prefix of `hay`. -/
def listPrefixB : List Char → List Char → Bool
  | [], _ => true
  | _ :: _, [] => false
  | a :: xs, b :: ys => a == b && listPrefixB xs ys

/-- Boolean test that `needle` is a contiguous sublist of `hay`. -/
def listInfixB : List Char → List Char → Bool
  | needle, [] => needle.isEmpty
  | needle, h :: t => listPrefixB needle (h :: t) || listInfixB needle t

/-- Python substring test `needle in haystack` on strings. -/
def strContains (haystack needle : String) : Bool :=
  listInfixB needle.toList haystack.toList

/-- Number of maximal runs of non-space characters. -/
def wordRuns : List Char → Bool → Nat
  | [], _ => 0
  | c :: cs, inWord =>
    if c = ' ' then wordRuns cs false
    else (if inWord then 0 else 1) + wordRuns cs true

/-- Python `len(s.split())`: number of whitespace-separated words (the
keyword lexicons contain no whitespace other than spaces). -/
def pyWordCount (s : String) : Nat := wordRuns s.toList false

/-- Floor of log₂ by repeated halving; the first argument is fuel bounding
the recursion depth and is always passed as the number itself, which
suffices since halving reaches 1 within `n` steps. -/
def log2Aux : Nat → Nat → Nat
  | 0, _ => 0
  | fuel + 1, n => if n < 2 then 0 else log2Aux fuel (n / 2) + 1

/-- `⌊log₂ n⌋` for `n ≥ 1` (and 0 for `n = 0`). -/
def natLog2 (n : Nat) : Nat := log2Aux n n

/-- Round a natural number to 53 significant bits, ties to even: the value
of the binary64 float nearest `n`, as produced when a Python int enters
float arithmetic.  The identity below `2^53`; correct rounding for every
`n` below the double overflow threshold `2^1024` (a CPython sequence holds
fewer than `2^63` elements, so the conversions modelled here never
overflow). -/
def roundNat53 (n : Nat) : Nat :=
  if n < 2 ^ 53 then n
  else
    let shift := natLog2 n - 52
    let q := n / 2 ^ shift
    let r := n % 2 ^ shift
    let half := 2 ^ (shift - 1)
    (if half < r ∨ (r = half ∧ q % 2 = 1) then q + 1 else q) * 2 ^ shift

/-- Round the positive rational `a / b` (`a, b ≥ 1`) to the nearest value
with a 53-bit significand, ties to even — the result IEEE-754 binary64
arithmetic assigns to an operation whose exact value is `a / b`.  The
exponent `e` is fixed by `2^e ≤ a/b < 2^(e+1)`; the significand is `a/b`
scaled by `2^(52-e)` and rounded to the nearest integer, ties to even.
(Overflow and subnormals are out of range for every caller in this file.) -/
def flPosRound (a b : Nat) : ℚ :=
  let e : Int :=
    if b ≤ a then (natLog2 (a / b) : Int)
    else
      let k := natLog2 (b / a)
      if a * 2 ^ k = b then -(k : Int) else -(k : Int) - 1
  let num := a * 2 ^ (52 - e).toNat
  let den := b * 2 ^ (e - 52).toNat
  let q := num / den
  let r := num % den
  let m := if den < 2 * r ∨ (2 * r = den ∧ q % 2 = 1) then q + 1 else q
  if 52 ≤ e then ((m * 2 ^ (e - 52).toNat : Nat) : ℚ)
  else (m : ℚ) / ((2 ^ (52 - e).toNat : Nat) : ℚ)

/-- IEEE-754 binary64 rounding (to nearest, ties to even) of an exact
rational: the float Python stores after an arithmetic operation with this
exact value. -/
def flRound (x : ℚ) : ℚ :=
  if x = 0 then 0
  else if x < 0 then -flPosRound (-x).num.toNat (-x).den
  else flPosRound x.num.toNat x.den

/-- Python float addition: the exact sum, rounded. -/
def fladd (x y : ℚ) : ℚ := flRound (x + y)

/-- Python float subtraction: the exact difference, rounded. -/
def flsub (x y : ℚ) : ℚ := flRound (x - y)

/-- Python float (true) division: the exact quotient, rounded. -/
def fldiv (x y : ℚ) : ℚ := flRound (x / y)

/-- The exact value of the binary64 literal `0.1`
(`0.1000000000000000055511151231257827…`). -/
def dbl01 : ℚ := 3602879701896397 / 2 ^ 55

/-- The exact value of the binary64 literal `0.2`. -/
def dbl02 : ℚ := 3602879701896397 / 2 ^ 54

/-- The exact value of the binary64 literal `0.3`
(`0.2999999999999999888977697537…`). -/
def dbl03 : ℚ := 5404319552844595 / 2 ^ 54

/-- The exact value of the binary64 literal `0.7`
(`0.6999999999999999555910790149…`). -/
def dbl07 : ℚ := 3152519739159347 / 2 ^ 52

/-- The exact value of the binary64 literal `0.8`. -/
def dbl08 : ℚ := 3602879701896397 / 2 ^ 52

namespace orchestrator_agent

/-- `QueryType` enum of orchestrator_agent.py. -/
inductive QueryType
  | data_analysis
  | research_query
  | general
  | ambiguous
  deriving DecidableEq, Repr

/-- The optional context dictionary passed to `process_query`.  A missing
`loaded_datasets` / `loaded_documents` key behaves like the empty list, so
both are modelled as plain lists. -/
structure Context where
  loaded_datasets : List String
  loaded_documents : List String
  deriving DecidableEq, Repr

/-- `self.data_keywords`: sub-categories of the tabular lexicon. -/
def data_keywords : List (String × List String) :=
  [("analysis",
    ["total", "sum", "average", "mean", "count", "maximum", "minimum",
     "plot", "chart", "graph", "visualize", "trend", "sales", "revenue",
     "profit", "expense", "customer", "product", "data", "csv", "excel",
     "table", "column", "row", "filter", "sort", "group", "aggregate"]),
   ("operations",
    ["load", "upload", "import", "export", "save", "delete"]),
   ("visualization",
    ["show", "display", "plot", "chart", "graph", "visualize",
     "bar", "line", "pie", "scatter", "histogram"])]

/-- `self.research_keywords`: sub-categories of the document lexicon. -/
def research_keywords : List (String × List String) :=
  [("document",
    ["paper", "document", "pdf", "research", "study", "article",
     "publication", "journal", "abstract", "summary"]),
   ("analysis",
    ["summarize", "extract", "keyword", "topic", "theme", "content",
     "methodology", "conclusion", "finding", "result"]),
   ("search",
    ["find", "search", "locate", "identify", "discover", "lookup"]),
   ("questions",
    ["what", "how", "why", "when", "where", "who", "explain", "describe"])]

/-- Inner loop of `_calculate_keyword_score`: the raw (unnormalized) score of
one sub-category, i.e. the sum of `len(keyword.split())` over the keywords
occurring in the (already lowercased) query. -/
def categoryRawScore (query : String) (keywords : List String) : Nat :=
  keywords.foldl (fun acc kw => if strContains query kw then acc + pyWordCount kw else acc) 0

/-- `_calculate_keyword_score(query, keyword_categories)`: accumulates
(normalized sub-category score, number of non-empty sub-categories) and
divides at the end.  `category_score` and `total_weight` are Python ints
(exact); the two divisions and the running `total_score +=` are float
operations, each rounded (`fldiv`/`fladd`), in iteration order. -/
def calculate_keyword_score (query : String) (cats : List (String × List String)) : ℚ :=
  let acc := cats.foldl
    (fun (p : ℚ × Nat) c =>
      if c.2.length ≠ 0 then
        (fladd p.1 (fldiv (categoryRawScore query c.2 : ℚ) (c.2.length : ℚ)), p.2 + 1)
      else p)
    (0, 0)
  if acc.2 > 0 then fldiv acc.1 (acc.2 : ℚ) else 0

/-- `_get_context_bias`: (+0.2 tabular, +0.2 document) biases for a non-empty
`loaded_datasets` / `loaded_documents` context entry.  The Python entry is
the int 0 or `0 + 0.2`, which is exactly the double `dbl02`. -/
def get_context_bias (context : Option Context) : ℚ × ℚ :=
  match context with
  | none => (0, 0)
  | some c =>
    ((if c.loaded_datasets ≠ [] then dbl02 else 0),
     (if c.loaded_documents ≠ [] then dbl02 else 0))

/-- The tabular fast-path tokens of `_classify_query`. -/
def tabular_tokens : List String := [".csv", ".xlsx", ".xls", "spreadsheet", "excel"]

/-- The document fast-path tokens of `_classify_query`. -/
def document_tokens : List String := [".pdf", "paper", "document", "research"]

/-- `_classify_query(query, context)`, returning (category, confidence).
The human-readable rationale string attached by the Python code carries no
information beyond the pair and is elided.  The two `+=` bias additions and
the subtraction inside `abs` are float operations (`fladd`/`flsub`); the
threshold constants are the exact binary64 values of the literals 0.3, 0.1,
0.2 and 0.8; all comparisons (float-float inside `>`-tests, `min`, `max`)
are exact in CPython and so exact rational comparisons here.  The fast-path
confidence 0.9 and the ambiguous confidence 0.5 are only stored, never
compared or computed with (0.5 is exactly representable). -/
def classify_query (query : String) (context : Option Context) : QueryType × ℚ :=
  let ql := pyLower query
  if tabular_tokens.any (fun t => strContains ql t) then (.data_analysis, 9/10)
  else if document_tokens.any (fun t => strContains ql t) then (.research_query, 9/10)
  else
    let bias := get_context_bias context
    let data_score := fladd (calculate_keyword_score ql data_keywords) bias.1
    let research_score := fladd (calculate_keyword_score ql research_keywords) bias.2
    if data_score > research_score ∧ data_score > dbl03 then
      (.data_analysis, pyMin dbl08 data_score)
    else if research_score > data_score ∧ research_score > dbl03 then
      (.research_query, pyMin dbl08 research_score)
    else if pyAbs (flsub data_score research_score) < dbl01 ∧
        pyMax data_score research_score > dbl02 then
      (.ambiguous, 1/2)
    else
      (.general, dbl03)

/-- Reference sub-category score, written from the spec's words: "score =
(sum over keywords present in the lowercased query of weight(keyword)) /
(number of keywords in that sub-category), where weight(keyword) = number of
whitespace-separated words in the keyword".  The weights and their sum are
Python ints (exact); the division is the program's float division. -/
def specSubScore (query : String) (keywords : List String) : ℚ :=
  fldiv ((((keywords.filter (fun kw => strContains query kw)).map pyWordCount).sum : ℚ))
    (keywords.length : ℚ)

/-- Reference lexicon score, written from the spec's words: "The lexicon's
total score = mean of its sub-category scores (sub-categories with zero
keywords are excluded, not counted as zero)".  The mean is computed as the
program computes it: the sub-category scores are accumulated left to right
with float addition and the total is float-divided by the count. -/
def specLexiconScore (query : String) (cats : List (String × List String)) : ℚ :=
  let nonEmpty := cats.filter (fun c => c.2 ≠ [])
  let total := (nonEmpty.map (fun c => specSubScore query c.2)).foldl fladd 0
  if nonEmpty.length ≠ 0 then fldiv total (nonEmpty.length : ℚ) else 0

/-- Reference classification, written from the spec's words (§4.1 steps
2-4): keyword scoring, the 0.2 context bonuses, and the fixed decision
rule, with all score arithmetic and threshold constants in binary64, as the
program evaluates them. -/
def specClassify (query : String) (context : Option Context) : QueryType × ℚ :=
  let ql := pyLower query
  let dataBonus : ℚ := match context with
    | some c => if c.loaded_datasets ≠ [] then dbl02 else 0
    | none => 0
  let docBonus : ℚ := match context with
    | some c => if c.loaded_documents ≠ [] then dbl02 else 0
    | none => 0
  let tScore := fladd (specLexiconScore ql data_keywords) dataBonus
  let dScore := fladd (specLexiconScore ql research_keywords) docBonus
  if tScore > dScore ∧ tScore > dbl03 then (.data_analysis, pyMin dbl08 tScore)
  else if dScore > tScore ∧ dScore > dbl03 then (.research_query, pyMin dbl08 dScore)
  else if pyAbs (flsub tScore dScore) < dbl01 ∧ pyMax tScore dScore > dbl02 then
    (.ambiguous, 1/2)
  else (.general, dbl03)

/-- The reference computation of the claim read with exact rational
arithmetic — sub-category score, exact mean, exact `+0.2` bonuses and exact
decimal thresholds.  The program computes in binary64 instead, and the two
disagree on reachable inputs (see the C2 counterexample). -/
def specSubScoreExact (query : String) (keywords : List String) : ℚ :=
  (((keywords.filter (fun kw => strContains query kw)).map
      (fun kw => (pyWordCount kw : ℚ))).sum) / (keywords.length : ℚ)

/-- Exact-arithmetic lexicon score: the exact mean of the exact sub-category
scores over the non-empty sub-categories. -/
def specLexiconScoreExact (query : String) (cats : List (String × List String)) : ℚ :=
  let nonEmpty := cats.filter (fun c => c.2 ≠ [])
  ((nonEmpty.map (fun c => specSubScoreExact query c.2)).sum) / (nonEmpty.length : ℚ)

/-- Exact-arithmetic reference classification: the decision rule applied to
the exact scores with the exact decimal constants 0.3, 0.1, 0.2, 0.8. -/
def specClassifyExact (query : String) (context : Option Context) : QueryType × ℚ :=
  let ql := pyLower query
  let dataBonus : ℚ := match context with
    | some c => if c.loaded_datasets ≠ [] then 2/10 else 0
    | none => 0
  let docBonus : ℚ := match context with
    | some c => if c.loaded_documents ≠ [] then 2/10 else 0
    | none => 0
  let tScore := specLexiconScoreExact ql data_keywords + dataBonus
  let dScore := specLexiconScoreExact ql research_keywords + docBonus
  if tScore > dScore ∧ tScore > 3/10 then (.data_analysis, pyMin (8/10) tScore)
  else if dScore > tScore ∧ dScore > 3/10 then (.research_query, pyMin (8/10) dScore)
  else if pyAbs (tScore - dScore) < 1/10 ∧ pyMax tScore dScore > 2/10 then (.ambiguous, 1/2)
  else (.general, 3/10)

/-- Outcome of `_handle_ambiguous_query` (which handler the query is sent to,
or which of the two non-routing answers is returned). -/
inductive AmbiguousOutcome
  | route_to_data
  | route_to_research
  | clarify
  | no_files_error
  deriving DecidableEq, Repr

/-- `_handle_ambiguous_query`: disambiguation against the actual loaded
state.  `data_storage` / `documents` are the key sets of the two agents'
stores (`bool(dict)` is non-emptiness). -/
def handle_ambiguous_query (data_storage : List String) (documents : List String) :
    AmbiguousOutcome :=
  let has_data := data_storage ≠ []
  let has_docs := documents ≠ []
  if has_data ∧ ¬ has_docs then .route_to_data
  else if has_docs ∧ ¬ has_data then .route_to_research
  else if has_data ∧ has_docs then .clarify
  else .no_files_error

end orchestrator_agent

namespace data_intelligence_agent

/-- One column's data, with its pandas dtype (numeric vs. object/text). -/
inductive ColData
  | numeric (vals : List ℚ)
  | text (vals : List String)
  deriving DecidableEq, Repr

/-- A loaded pandas DataFrame: ordered named columns. -/
structure DataFrame where
  columns : List (String × ColData)
  deriving DecidableEq, Repr

/-- A single cell value. -/
inductive Cell
  | num (x : ℚ)
  | str (s : String)
  deriving DecidableEq, Repr

/-- The values of a column when it is numeric. -/
def getNumeric : ColData → Option (List ℚ)
  | .numeric vs => some vs
  | .text _ => none

/-- Number of entries in a column. -/
def colSize : ColData → Nat
  | .numeric vs => vs.length
  | .text vs => vs.length

/-- Python `len(df)`: the row count (length of the columns). -/
def DataFrame.nrows (df : DataFrame) : Nat :=
  match df.columns with
  | [] => 0
  | c :: _ => colSize c.2

/-- `df.select_dtypes(include=[np.number]).columns` together with the data. -/
def numeric_columns (df : DataFrame) : List (String × List ℚ) :=
  df.columns.filterMap (fun c => (getNumeric c.2).map (fun vs => (c.1, vs)))

/-- Cell of a column at a row index (callers stay in bounds). -/
def cellAt : ColData → Nat → Cell
  | .numeric vs, i => .num (vs.getD i 0)
  | .text vs, i => .str (vs.getD i "")

/-- Row `i` of the DataFrame as a record (column name, cell). -/
def DataFrame.row (df : DataFrame) (i : Nat) : List (String × Cell) :=
  df.columns.map (fun c => (c.1, cellAt c.2 i))

/-- The four aggregation operations of `_handle_aggregation_query`. -/
inductive AggOp
  | sum
  | mean
  | max
  | min
  deriving DecidableEq, Repr

/-- The Python name of the operation (the `operation` string argument). -/
def AggOp.pyName : AggOp → String
  | .sum => "sum"
  | .mean => "mean"
  | .max => "max"
  | .min => "min"

/-- Python `operation.title()`. -/
def AggOp.pyTitle : AggOp → String
  | .sum => "Sum"
  | .mean => "Mean"
  | .max => "Max"
  | .min => "Min"

/-- pandas `Series.max()`; the empty case (NaN in pandas) is modelled as 0,
no claim depends on it. -/
def seriesMax : List ℚ → ℚ
  | [] => 0
  | v :: rest => rest.foldl pyMax v

/-- pandas `Series.min()`; empty case as in `seriesMax`. -/
def seriesMin : List ℚ → ℚ
  | [] => 0
  | v :: rest => rest.foldl pyMin v

/-- The requested statistic of a numeric column (`df[col].sum()` etc.). -/
def aggValue : AggOp → List ℚ → ℚ
  | .sum, vs => vs.sum
  | .mean, vs => vs.sum / (vs.length : ℚ)
  | .max, vs => seriesMax vs
  | .min, vs => seriesMin vs

/-- Digit groups of `n` from the right, three at a time (reversed digits in,
reversed digit groups out). -/
def chunk3 : List Char → List (List Char)
  | [] => []
  | [a] => [[a]]
  | [a, b] => [[a, b]]
  | a :: b :: c :: rest => [a, b, c] :: chunk3 rest

/-- Decimal representation of `n` with thousands separators. -/
def natCommas (n : Nat) : String :=
  String.intercalate ","
    (((chunk3 (toString n).toList.reverse).map List.reverse).reverse.map String.mk)

/-- Two-digit zero-padded decimal representation of `n < 100`. -/
def twoDigitPad (n : Nat) : String :=
  if n < 10 then "0" ++ toString n else toString n

/-- Python format spec `,.2f` applied to an exact rational: thousands
separators and two decimals.  Rounding of the third decimal is modelled as
round-half-up; the Python float formatting rounds the nearest-double
half-even, which agrees on all concrete values appearing here. -/
def formatComma2 (q : ℚ) : String :=
  if q < 0 then
    "-" ++ (let cents := (⌊(-q) * 100 + 1/2⌋).toNat
            natCommas (cents / 100) ++ "." ++ twoDigitPad (cents % 100))
  else
    let cents := (⌊q * 100 + 1/2⌋).toNat
    natCommas (cents / 100) ++ "." ++ twoDigitPad (cents % 100)

/-- The column-resolution test used throughout data_intelligence_agent.py:
`col.lower() in query.lower()`. -/
def matchesColumn (query : String) (name : String) : Bool :=
  strContains (pyLower query) (pyLower name)

/-- `for col in df.columns: if col.lower() in query.lower(): target; break`. -/
def find_target_column (df : DataFrame) (query : String) : Option (String × ColData) :=
  df.columns.find? (fun c => matchesColumn query c.1)

/-- Result of `_handle_aggregation_query`: a single-column statistic with its
message, or the statistic of every numeric column. -/
inductive AggResult
  | single (value : ℚ) (message : String)
  | allCols (results : List (String × ℚ)) (message : String)
  deriving DecidableEq, Repr

/-- `_handle_aggregation_query(df, query, operation)`. -/
def handle_aggregation_query (df : DataFrame) (query : String) (op : AggOp) : AggResult :=
  match find_target_column df query with
  | some (name, .numeric vs) =>
    let r := aggValue op vs
    .single r ("The " ++ op.pyName ++ " of " ++ name ++ " is " ++ formatComma2 r)
  | _ =>
    .allCols ((numeric_columns df).map (fun c => (c.1, aggValue op c.2)))
      (op.pyTitle ++ " values for all numeric columns")

/-- The structured result of `process_query`.  Chart-producing branches
(visualization, trend) return chart payloads whose internals no claim
touches; they are represented by bare tags. -/
inductive QueryResult
  | error (msg : String)
  | aggregation (r : AggResult)
  | countRecords (n : Nat) (message : String)
  | visualization
  | trend
  | ranking (rows : List (List (String × Cell))) (message : String)
  | filterAck
  | generalInfo
  deriving DecidableEq, Repr

/-- `_handle_count_query(df, query)`: the total row count, independent of the
query text. -/
def handle_count_query (df : DataFrame) : QueryResult :=
  .countRecords df.nrows ("Total number of records: " ++ natCommas df.nrows)

/-- Maximal digit runs of a character list (`re.findall` with a digit-run
pattern); second argument is the reversed run in progress. -/
def digitRunsAux : List Char → List Char → List (List Char)
  | [], [] => []
  | [], run => [run.reverse]
  | c :: cs, run =>
    if c.isDigit then digitRunsAux cs (c :: run)
    else if run.isEmpty then digitRunsAux cs []
    else run.reverse :: digitRunsAux cs []

/-- Decimal value of a digit run. -/
def parseDigits (ds : List Char) : Nat :=
  ds.foldl (fun a c => a * 10 + (c.toNat - 48)) 0

/-- `re.findall` of digit runs followed by `int(numbers[0])`, as used by
`_handle_ranking_query`. -/
def firstIntLiteral (query : String) : Option Nat :=
  match digitRunsAux query.toList [] with
  | [] => none
  | run :: _ => some (parseDigits run)

/-- The ordering pandas `nlargest` (descending) / `nsmallest` (ascending)
sorts row indices by. -/
def rankOrder (vals : List ℚ) (ascending : Bool) (i j : Nat) : Prop :=
  if ascending then vals.getD i 0 ≤ vals.getD j 0 else vals.getD j 0 ≤ vals.getD i 0

instance (vals : List ℚ) (ascending : Bool) : DecidableRel (rankOrder vals ascending) :=
  fun i j => by unfold rankOrder; infer_instance

instance (vals : List ℚ) (ascending : Bool) : IsTotal Nat (rankOrder vals ascending) :=
  ⟨by intro a b; unfold rankOrder; cases ascending <;> simp <;> exact le_total _ _⟩

instance (vals : List ℚ) (ascending : Bool) : IsTrans Nat (rankOrder vals ascending) := by
  constructor
  intro a b c h1 h2
  unfold rankOrder at h1 h2 ⊢
  cases ascending
  · simp only [Bool.false_eq_true, if_false] at h1 h2 ⊢
    exact le_trans h2 h1
  · simp only [if_true] at h1 h2 ⊢
    exact le_trans h1 h2

/-- Row indices ordered as pandas `nlargest` (descending) / `nsmallest`
(ascending) with `keep=first` would order the rows: a stable sort by the
column values, so equal values keep their original (first-seen) order. -/
def rankIdx (vals : List ℚ) (ascending : Bool) : List Nat :=
  (List.range vals.length).insertionSort (rankOrder vals ascending)

/-- `_handle_ranking_query(df, query)`.  An `Except.error` is an uncaught
Python exception (pandas raises a TypeError when `nlargest` is applied to a
non-numeric column); returned error dictionaries are `.ok (.error _)`. -/
def handle_ranking_query (df : DataFrame) (query : String) : Except String QueryResult :=
  let ql := pyLower query
  let n := match firstIntLiteral query with
    | some m => m
    | none => 5
  let ascending := strContains ql "bottom" || strContains ql "lowest"
  let target := match find_target_column df query with
    | some c => some c
    | none => df.columns.find? (fun c => (getNumeric c.2).isSome)
  match target with
  | none => .ok (.error "Could not identify column for ranking")
  | some (name, .text _) =>
    .error ("Column " ++ name ++ " has dtype object, cannot use method nlargest with this dtype")
  | some (name, .numeric vs) =>
    let idxs := (rankIdx vs ascending).take n
    .ok (.ranking (idxs.map df.row)
      ((if ascending then "Bottom " else "Top ") ++ toString n ++ " records by " ++ name))

/-- Keyword groups of the `process_query` dispatch chain, in source order. -/
def sum_kws : List String := ["total", "sum", "add"]

/-- Keywords selecting the mean aggregation. -/
def mean_kws : List String := ["average", "mean", "avg"]

/-- Keywords selecting the max aggregation. -/
def max_kws : List String := ["maximum", "max", "highest"]

/-- Keywords selecting the min aggregation. -/
def min_kws : List String := ["minimum", "min", "lowest"]

/-- Keywords selecting the count handler. -/
def count_kws : List String := ["count", "number of"]

/-- Keywords selecting the visualization handler. -/
def viz_kws : List String := ["plot", "chart", "graph", "visualize", "show"]

/-- Keywords selecting the trend handler. -/
def trend_kws : List String := ["trend", "over time", "timeline"]

/-- Keywords selecting the ranking handler. -/
def rank_kws : List String := ["top", "bottom", "rank"]

/-- Keywords selecting the filter handler. -/
def filter_kws : List String := ["filter", "where", "condition"]

/-- Test that some keyword of the group occurs in the lowercased query. -/
def anyKw (ql : String) (kws : List String) : Bool :=
  kws.any (fun w => strContains ql w)

/-- The dispatch chain inside the `try` block of `process_query` (everything
after the dataset has been resolved).  `Except.error` is an uncaught
exception, converted by the `except` clause of `process_query`.  The
visualization and trend branches return chart payloads (or their own error
dictionaries); no claim touches their internals, so they are summarized by
their tags. -/
def process_query_inner (df : DataFrame) (query : String) : Except String QueryResult :=
  let ql := pyLower query
  if anyKw ql sum_kws then .ok (.aggregation (handle_aggregation_query df query .sum))
  else if anyKw ql mean_kws then .ok (.aggregation (handle_aggregation_query df query .mean))
  else if anyKw ql max_kws then .ok (.aggregation (handle_aggregation_query df query .max))
  else if anyKw ql min_kws then .ok (.aggregation (handle_aggregation_query df query .min))
  else if anyKw ql count_kws then .ok (handle_count_query df)
  else if anyKw ql viz_kws then .ok .visualization
  else if anyKw ql trend_kws then .ok .trend
  else if anyKw ql rank_kws then handle_ranking_query df query
  else if anyKw ql filter_kws then .ok .filterAck
  else .ok .generalInfo

/-- `if not dataset_name: dataset_name = self.current_dataset` followed by
the `dataset_name not in self.data_storage` membership test. -/
def resolve_dataset (storage : List (String × DataFrame)) (current : Option String)
    (dataset_name : Option String) : Option DataFrame :=
  let name := match dataset_name with
    | some n => some n
    | none => current
  match name with
  | none => none
  | some n => storage.lookup n

/-- `process_query(self, query, dataset_name)`.  The pair also returns the
data storage to record that the operation does not mutate it. -/
def process_query (storage : List (String × DataFrame)) (current : Option String)
    (query : String) (dataset_name : Option String) :
    QueryResult × List (String × DataFrame) :=
  match resolve_dataset storage current dataset_name with
  | none => (.error "No dataset loaded. Please upload a file first.", storage)
  | some df =>
    match process_query_inner df query with
    | .ok r => (r, storage)
    | .error e => (.error ("Failed to process query: " ++ e), storage)

/-- The example dataset of the spec (section 8): a single numeric column
`Revenue` holding [1200, 75, 400, 1200, 80]. -/
def revenue_df : DataFrame := ⟨[("Revenue", .numeric [1200, 75, 400, 1200, 80])]⟩

end data_intelligence_agent

namespace research_assistant_agent

/-- Python `len(sentences) * 0.3`, exactly: the int is converted to
binary64 (`roundNat53`, the identity below `2^53`) and multiplied by the
binary64 literal 0.3, with the product rounded. -/
def pyMul03 (n : Nat) : ℚ := flRound ((roundNat53 n : ℚ) * dbl03)

/-- Python `len(sentences) * 0.7`, exactly. -/
def pyMul07 (n : Nat) : ℚ := flRound ((roundNat53 n : ℚ) * dbl07)

/-- The score `_generate_summary` assigns to sentence `i` of `n` with text
`s`: +2 when `i < n * 0.3`, +1 when `i > n * 0.7`, +1 for a length strictly
between 50 and 200.  The positional products are binary64 products and the
index-to-product comparisons are exact (CPython compares an int to a float
exactly), so e.g. for `n = 90` the product `90 * 0.7` rounds down to
`62.99999999999999` and index 63 does receive the `+1` bonus, although
`10 * 63 > 7 * 90` fails. -/
def sentenceScore (n i : Nat) (s : String) : Nat :=
  (if (i : ℚ) < pyMul03 n then 2 else 0) +
  (if (i : ℚ) > pyMul07 n then 1 else 0) +
  (if 50 < s.length ∧ s.length < 200 then 1 else 0)

/-- Python descending comparison of score tuples, as used by
`sentence_scores.sort(reverse=True)`: lexicographic on (score, index),
descending.  The third tuple component (the sentence text) is compared by
Python only when both score and index are equal, which cannot happen since
indices are distinct; it is therefore elided. -/
def summaryOrder (a b : Nat × Nat × String) : Prop :=
  b.1 < a.1 ∨ (a.1 = b.1 ∧ b.2.1 ≤ a.2.1)

instance : DecidableRel summaryOrder :=
  fun a b => by unfold summaryOrder; infer_instance

instance : IsTotal (Nat × Nat × String) summaryOrder :=
  ⟨by intro a b; unfold summaryOrder; omega⟩

instance : IsTrans (Nat × Nat × String) summaryOrder :=
  ⟨by intro a b c; unfold summaryOrder; omega⟩

/-- Ascending comparison on the index component, as used by
`sorted(sentence_scores[:max_sentences], key=lambda x: x[1])`. -/
def idxOrder (a b : Nat × Nat × String) : Prop :=
  a.2.1 ≤ b.2.1

instance : DecidableRel idxOrder :=
  fun a b => by unfold idxOrder; infer_instance

instance : IsTotal (Nat × Nat × String) idxOrder :=
  ⟨by intro a b; unfold idxOrder; omega⟩

instance : IsTrans (Nat × Nat × String) idxOrder :=
  ⟨by intro a b c; unfold idxOrder; omega⟩

/-- The tuple `(score, i, sentence)` appended for index `i` by the scoring
loop of `_generate_summary`. -/
def scoreTuple (sentences : List String) (i : Nat) : Nat × Nat × String :=
  (sentenceScore sentences.length i (sentences.getD i ""), i, sentences.getD i "")

/-- The scored-tuple list `sentence_scores` built by `_generate_summary`. -/
def scoredTuples (sentences : List String) : List (Nat × Nat × String) :=
  (List.range sentences.length).map (scoreTuple sentences)

/-- `_generate_summary(text, max_sentences)`.  The NLTK sentence tokenizer is
an external collaborator, so the sentence list `sentences =
sent_tokenize(text)` is an explicit input. -/
def generate_summary (text : String) (sentences : List String) (max_sentences : Nat) : String :=
  if sentences.length ≤ max_sentences then text
  else
    String.intercalate " "
      (((((scoredTuples sentences).insertionSort summaryOrder).take
          max_sentences).insertionSort idxOrder).map (fun t => t.2.2))

/-- The per-index scores of the sentence list. -/
def scoresOf (sentences : List String) : List Nat :=
  (List.range sentences.length).map
    (fun i => sentenceScore sentences.length i (sentences.getD i ""))

/-- Sentence `j` strictly precedes sentence `i` in the summary ordering:
higher score, or equal score and later position (Python's descending tuple
sort puts the larger index first among equal scores). -/
def laterBeats (scores : List Nat) (j i : Nat) : Bool :=
  decide (scores.getD i 0 < scores.getD j 0 ∨ (scores.getD j 0 = scores.getD i 0 ∧ i < j))

/-- Reference selection: the indices (in ascending order) of the `k`
best-ranked sentences, where the rank of `i` is the number of sentences
strictly preceding it in the summary ordering. -/
def summaryTopIdx (scores : List Nat) (k : Nat) : List Nat :=
  (List.range scores.length).filter (fun i =>
    decide (((List.range scores.length).filter (fun j => laterBeats scores j i)).length < k))

/-- A chunk record produced by `_split_into_chunks`. -/
structure Chunk where
  text : String
  chunk_id : Nat
  sentence_count : Nat
  deriving DecidableEq, Repr

/-- A chunk together with verification-only bookkeeping: the sentences it
holds and how many of its leading sentences were carried over from the
previous chunk as overlap. -/
structure GhostChunk where
  chunk : Chunk
  sentences : List String
  overlap_count : Nat
  deriving DecidableEq, Repr

/-- The loop state of `_split_into_chunks` (`chunks`, `current_chunk`,
`current_sentences`), with the ghost overlap counter. -/
structure SplitAcc where
  chunks : List GhostChunk
  current_chunk : String
  current_sentences : List String
  cur_overlap : Nat
  deriving DecidableEq, Repr

/-- Python `str.strip()` (the chunk texts only ever carry space padding). -/
def pyStrip (s : String) : String :=
  String.mk (((s.toList.dropWhile (fun c => c = ' ')).reverse.dropWhile
    (fun c => c = ' ')).reverse)

/-- `chunks.append({...})` guarded by `if current_chunk:`. -/
def closeChunk (st : SplitAcc) : List GhostChunk :=
  if st.current_chunk = "" then st.chunks
  else st.chunks ++
    [⟨⟨pyStrip st.current_chunk, st.chunks.length, st.current_sentences.length⟩,
      st.current_sentences, st.cur_overlap⟩]

/-- One iteration of the sentence loop of `_split_into_chunks`.  The Python
slice `current_sentences[-overlap//50:]` takes the last `⌈overlap/50⌉`
sentences (`-overlap//50` floor-divides the negated parameter) and the guard
compares against `⌊overlap/50⌋`; with the default `overlap = 50` both are 1. -/
def splitStep (chunk_size overlap : Nat) (st : SplitAcc) (sentence : String) : SplitAcc :=
  if st.current_chunk.length + sentence.length < chunk_size then
    { st with current_chunk := st.current_chunk ++ " " ++ sentence,
              current_sentences := st.current_sentences ++ [sentence] }
  else
    let ovFloor := overlap / 50
    let ovCeil := (overlap + 49) / 50
    let overlap_sentences :=
      if st.current_sentences.length > ovFloor then
        if ovCeil = 0 then st.current_sentences
        else st.current_sentences.drop (st.current_sentences.length - ovCeil)
      else []
    { chunks := closeChunk st,
      current_chunk := String.intercalate " " overlap_sentences ++ " " ++ sentence,
      current_sentences := overlap_sentences ++ [sentence],
      cur_overlap := overlap_sentences.length }

/-- `_split_into_chunks(text, chunk_size, overlap)`, over the sentence list
`sentences = sent_tokenize(text)` (the tokenizer is an external
collaborator). -/
def split_into_chunks (sentences : List String) (chunk_size overlap : Nat) :
    List GhostChunk :=
  closeChunk (sentences.foldl (splitStep chunk_size overlap) ⟨[], "", [], 0⟩)

/-- The sentence sequence a chunking run stands for: the sentences of the
closed chunks with each chunk's leading overlap removed, followed by the
non-overlap part of the open chunk. -/
def reconstruct (st : SplitAcc) : List String :=
  (st.chunks.map (fun g => g.sentences.drop g.overlap_count)).flatten ++
    st.current_sentences.drop st.cur_overlap

/-- Fourteen short sentences (each below the 50-character length bonus);
with 14 sentences the +2 positional bonus goes to indices 0-4 and the +1
bonus to indices 10-13, so indices 0-4 tie at the top score. -/
def summary_sentences : List String :=
  ["S0.", "S1.", "S2.", "S3.", "S4.", "S5.", "S6.", "S7.", "S8.", "S9.",
   "S10.", "S11.", "S12.", "S13."]

/-- Python list indexing with negative-index wrap-around; `none` is an
IndexError. -/
def pyGet (l : List Chunk) (i : ℤ) : Option Chunk :=
  if 0 ≤ i then l.get? i.toNat
  else if -i ≤ (l.length : ℤ) then l.get? (l.length - (-i).toNat)
  else none

/-- One retrieved chunk of `answer_question`. -/
structure RetrievedChunk where
  text : String
  score : ℚ
  chunk_id : Nat
  document : String
  deriving DecidableEq, Repr

/-- The retrieval loop of `answer_question` over the FAISS hits
`zip(scores[0], indices[0])` for one document: keep a hit only when
`idx < len(doc.chunks)`, then read `doc.chunks[idx]`.  FAISS returns signed
indices (−1 pads missing results), hence `ℤ`; `none` is an uncaught
IndexError. -/
def collect_relevant_chunks (doc_name : String) (chunks : List Chunk) :
    List (ℚ × ℤ) → Option (List RetrievedChunk)
  | [] => some []
  | (score, idx) :: rest =>
    if idx < (chunks.length : ℤ) then
      match pyGet chunks idx with
      | none => none
      | some ch =>
        match collect_relevant_chunks doc_name chunks rest with
        | none => none
        | some tail =>
          some ({ text := ch.text, score := score, chunk_id := ch.chunk_id,
                  document := doc_name } :: tail)
    else collect_relevant_chunks doc_name chunks rest

/-- One search hit of `search_documents`. -/
structure SearchResult where
  document : String
  title : String
  text : String
  score : ℚ
  chunk_id : Nat
  deriving DecidableEq, Repr

/-- The retrieval loop of `search_documents` for one document: the same
bounds guard as `collect_relevant_chunks`, with the chunk text truncated to
200 characters. -/
def collect_search_results (doc_name title : String) (chunks : List Chunk) :
    List (ℚ × ℤ) → Option (List SearchResult)
  | [] => some []
  | (score, idx) :: rest =>
    if idx < (chunks.length : ℤ) then
      match pyGet chunks idx with
      | none => none
      | some ch =>
        match collect_search_results doc_name title chunks rest with
        | none => none
        | some tail =>
          some ({ document := doc_name, title := title,
                  text := String.mk (ch.text.toList.take 200) ++ "...",
                  score := score, chunk_id := ch.chunk_id } :: tail)
    else collect_search_results doc_name title chunks rest

end research_assistant_agent

end MultiAgent

/-! ## Theorems -/

namespace MultiAgent

namespace orchestrator_agent

theorem categoryRawScore_aux (q : String) (kws : List String) (a : Nat) :
    kws.foldl (fun acc kw => if strContains q kw then acc + pyWordCount kw else acc) a =
      a + ((kws.filter (fun kw => strContains q kw)).map pyWordCount).sum := by
  induction kws generalizing a with
  | nil => simp
  | cons k t ih =>
    by_cases h : strContains q k
    · simp [List.filter_cons, h, ih, Nat.add_assoc]
    · simp [List.filter_cons, h, ih]

theorem categoryRawScore_cast (q : String) (kws : List String) :
    (categoryRawScore q kws : ℚ) =
      ((((kws.filter (fun kw => strContains q kw)).map pyWordCount).sum : Nat) : ℚ) := by
  unfold categoryRawScore
  rw [categoryRawScore_aux, Nat.zero_add]

theorem keyword_fold_aux (q : String) (cats : List (String × List String)) (s : ℚ) (c : Nat) :
    cats.foldl
      (fun (p : ℚ × Nat) c2 =>
        if c2.2.length ≠ 0 then
          (fladd p.1 (fldiv (categoryRawScore q c2.2 : ℚ) (c2.2.length : ℚ)), p.2 + 1)
        else p)
      (s, c) =
    (((cats.filter (fun x => x.2 ≠ [])).map (fun x => specSubScore q x.2)).foldl fladd s,
     c + (cats.filter (fun x => x.2 ≠ [])).length) := by
  induction cats generalizing s c with
  | nil => simp
  | cons hd t ih =>
    rw [List.foldl_cons, List.filter_cons]
    by_cases h : hd.2 = []
    · rw [if_neg (by simp [h]), if_neg (by simp [h]), ih]
    · rw [if_pos (by simpa using h), if_pos (by simp [h]), ih]
      simp only [List.map_cons, List.foldl_cons, List.length_cons, Prod.mk.injEq]
      constructor
      · have hsub : fldiv ((categoryRawScore q hd.2 : ℚ)) ((hd.2.length : ℚ)) =
            specSubScore q hd.2 := by
          unfold specSubScore
          rw [categoryRawScore_cast]
        rw [hsub]
      · omega

theorem calculate_keyword_score_eq_spec (q : String) (cats : List (String × List String)) :
    calculate_keyword_score q cats = specLexiconScore q cats := by
  unfold calculate_keyword_score specLexiconScore
  rw [keyword_fold_aux]
  simp only [Nat.zero_add]
  by_cases h : (cats.filter (fun x => x.2 ≠ [])).length = 0
  · rw [h]
    simp
  · rw [if_pos (Nat.pos_of_ne_zero h), if_pos h]

/-- C2 (amended): for every query containing no tabular or document format
token and every context, the classification of `_classify_query` (category
and confidence) equals the reference computation written from the spec —
mean of per-sub-category keyword scores, the 0.2 context bonuses, and the
fixed decision thresholds — with all score arithmetic and threshold
comparisons performed in IEEE-754 binary64, as the program performs them. -/
theorem C2_classification_matches_reference_amended (query : String) (context : Option Context)
    (htab : tabular_tokens.any (fun t => strContains (pyLower query) t) = false)
    (hdoc : document_tokens.any (fun t => strContains (pyLower query) t) = false) :
    classify_query query context = specClassify query context := by
  unfold classify_query specClassify
  simp only [htab, hdoc, Bool.false_eq_true, if_false]
  rw [calculate_keyword_score_eq_spec, calculate_keyword_score_eq_spec]
  cases context <;> simp [get_context_bias]

/-- Witness for C2: the query "extract topic theme keyword" contains no
format token, and with a document loaded the classifier agrees with the
binary64 reference computation on it. -/
theorem C2_classification_matches_reference_amended_witness :
    (tabular_tokens.any
      (fun t => strContains (pyLower "extract topic theme keyword") t) = false) ∧
    (document_tokens.any
      (fun t => strContains (pyLower "extract topic theme keyword") t) = false) ∧
    classify_query "extract topic theme keyword" (some ⟨[], ["paper.pdf"]⟩) =
      specClassify "extract topic theme keyword" (some ⟨[], ["paper.pdf"]⟩) :=
  ⟨by decide, by decide,
    C2_classification_matches_reference_amended "extract topic theme keyword"
      (some ⟨[], ["paper.pdf"]⟩) (by decide) (by decide)⟩

/-- C2 counterexample: on the query "extract topic theme keyword" with a
document loaded, the program's research score is the binary64 sum
`0.4 / 4 + 0.2 = 0.30000000000000004`, which exceeds the binary64 literal
0.3, so `_classify_query` answers research_query with that sum as its
confidence — while the reference computation in exact arithmetic scores
exactly 3/10, fails the 0.3 threshold, and answers general with
confidence 0.3. -/
theorem C2_counterexample_float_threshold :
    classify_query "extract topic theme keyword" (some ⟨[], ["paper.pdf"]⟩) =
      (.research_query, 1351079888211149 / 4503599627370496) ∧
    specClassifyExact "extract topic theme keyword" (some ⟨[], ["paper.pdf"]⟩) =
      (.general, 3/10) ∧
    classify_query "extract topic theme keyword" (some ⟨[], ["paper.pdf"]⟩) ≠
      specClassifyExact "extract topic theme keyword" (some ⟨[], ["paper.pdf"]⟩) := by
  refine ⟨by decide, by decide, by decide⟩

/-- C5: a query containing a tabular format token classifies as data
analysis with confidence 0.9, regardless of the context and of any document
token also present, because the tabular fast path is checked first. -/
theorem C5_tabular_fastpath_first (query : String) (context : Option Context)
    (htab : tabular_tokens.any (fun t => strContains (pyLower query) t) = true) :
    classify_query query context = (.data_analysis, 9/10) := by
  unfold classify_query
  simp only [htab, if_true]

/-- Witness for C5: "convert this .csv to .pdf" carries both a tabular and a
document token and still classifies as data analysis with confidence 0.9. -/
theorem C5_tabular_fastpath_first_witness :
    (tabular_tokens.any (fun t => strContains (pyLower "convert this .csv to .pdf") t) = true) ∧
    (document_tokens.any (fun t => strContains (pyLower "convert this .csv to .pdf") t) = true) ∧
    classify_query "convert this .csv to .pdf" none = (.data_analysis, 9/10) :=
  ⟨by decide, by decide, C5_tabular_fastpath_first "convert this .csv to .pdf" none (by decide)⟩

/-- C4: `_handle_ambiguous_query` inspects the actual loaded state: with
exactly one of the two stores non-empty the query is routed to that store's
handler, and the clarification prompt is only produced when both stores are
loaded (so never when exactly one is). -/
theorem C4_ambiguous_resolution (data_storage documents : List String) :
    (data_storage ≠ [] ∧ documents = [] →
      handle_ambiguous_query data_storage documents = .route_to_data) ∧
    (documents ≠ [] ∧ data_storage = [] →
      handle_ambiguous_query data_storage documents = .route_to_research) ∧
    (handle_ambiguous_query data_storage documents = .clarify →
      data_storage ≠ [] ∧ documents ≠ []) := by
  unfold handle_ambiguous_query
  by_cases hd : data_storage = [] <;> by_cases hc : documents = [] <;> simp [hd, hc]

/-- Witness for C4: with one dataset loaded and no documents, an Ambiguous
query goes to the tabular analyzer. -/
theorem C4_ambiguous_resolution_witness :
    handle_ambiguous_query ["sales.csv"] [] = .route_to_data :=
  (C4_ambiguous_resolution ["sales.csv"] []).1 ⟨by decide, rfl⟩

end orchestrator_agent

/-- `List.find?` returns the element at the first index satisfying the
predicate. -/
theorem find_first_match {α : Type} (p : α → Bool) (d : α) :
    ∀ (l : List α) (i : Nat), i < l.length → p (l.getD i d) = true →
      (∀ j, j < i → p (l.getD j d) = false) → l.find? p = some (l.getD i d)
  | a :: t, 0, _, hp, _ => by
    simp only [List.getD_cons_zero] at hp ⊢
    rw [List.find?_cons_of_pos _ hp]
  | a :: t, i + 1, hi, hp, hb => by
    have ha : p a = false := by
      have h0 := hb 0 (Nat.succ_pos i)
      simpa using h0
    rw [List.getD_cons_succ] at hp ⊢
    rw [List.find?_cons_of_neg _ (by simp [ha])]
    exact find_first_match p d t i (by simpa using hi) hp
      (fun j hj => by simpa using hb (j + 1) (by omega))

section SortedSelect

open List

variable {α : Type}

/-- In a duplicate-free list, a two-element pattern cannot be a sublist in
both orders unless the two elements coincide. -/
theorem pair_sublist_antisymm :
    ∀ {L : List α} {a b : α}, L.Nodup → [a, b] <+ L → [b, a] <+ L → a = b := by
  intro L
  induction L with
  | nil =>
    intro a b _ h1 _
    simp at h1
  | cons x t ih =>
    intro a b hnd h1 h2
    cases h1 with
    | cons _ h1t =>
      cases h2 with
      | cons _ h2t => exact ih hnd.of_cons h1t h2t
      | cons₂ _ h2t =>
        exfalso
        have hbt : x ∈ t := h1t.subset (by simp)
        exact (List.nodup_cons.mp hnd).1 hbt
    | cons₂ _ h1t =>
      cases h2 with
      | cons _ h2t =>
        exfalso
        have hat : x ∈ t := h2t.subset (by simp)
        exact (List.nodup_cons.mp hnd).1 hat
      | cons₂ _ h2t => rfl

/-- Membership in the first `k` entries of a sorted permutation `L` of a
duplicate-free list `l` is exactly having fewer than `k` strict predecessors
in the order (antisymmetric on `l`). -/
theorem mem_take_sorted_iff {r : α → α → Prop} [DecidableRel r] [DecidableEq α]
    (l L : List α) (k : Nat)
    (hperm : L ~ l) (hsort : L.Pairwise r) (hnd : l.Nodup)
    (hanti : ∀ x ∈ l, ∀ y ∈ l, r x y → r y x → x = y)
    (x : α) (hx : x ∈ l) :
    (x ∈ L.take k ↔
      (l.filter (fun y => decide (r y x ∧ y ≠ x))).length < k) := by
  have hndL : L.Nodup := (hperm.nodup_iff).mpr hnd
  have hxL : x ∈ L := (hperm.mem_iff).mpr hx
  have hsplit : L.take k ++ L.drop k = L := List.take_append_drop k L
  have hmeml : ∀ y, y ∈ L → y ∈ l := fun y hy => (hperm.mem_iff).mp hy
  have hcnt : (l.filter (fun y => decide (r y x ∧ y ≠ x))).length =
      ((L.take k).filter (fun y => decide (r y x ∧ y ≠ x))).length +
      ((L.drop k).filter (fun y => decide (r y x ∧ y ≠ x))).length := by
    rw [← List.length_append, ← List.filter_append, hsplit]
    exact ((hperm.filter _).length_eq).symm
  constructor
  · intro hmem
    have hdrop : ((L.drop k).filter (fun y => decide (r y x ∧ y ≠ x))).length = 0 := by
      rw [List.length_eq_zero, List.filter_eq_nil_iff]
      intro y hy
      simp only [decide_eq_true_eq, not_and, ne_eq, not_not]
      intro hryx
      have hrxy : r x y := hsort.rel_of_mem_take_of_mem_drop hmem hy
      exact (hanti x hx y (hmeml y (List.mem_of_mem_drop hy)) hrxy hryx).symm
    have htake : ((L.take k).filter (fun y => decide (r y x ∧ y ≠ x))).length <
        (L.take k).length := by
      rw [List.length_filter_lt_length_iff_exists]
      exact ⟨x, hmem, by simp⟩
    have hlen : (L.take k).length ≤ k := List.length_take_le k L
    omega
  · intro hcount
    by_contra hmem
    have hxdrop : x ∈ L.drop k := by
      have := (List.mem_append.mp (hsplit.symm ▸ hxL))
      tauto
    have hdisj : (L.take k).Disjoint (L.drop k) := by
      have := hsplit.symm ▸ hndL
      exact ((List.nodup_append.mp this).2.2)
    have htake : ((L.take k).filter (fun y => decide (r y x ∧ y ≠ x))) = L.take k := by
      rw [List.filter_eq_self]
      intro y hy
      simp only [decide_eq_true_eq, ne_eq]
      refine ⟨hsort.rel_of_mem_take_of_mem_drop hy hxdrop, ?_⟩
      intro hyx
      exact hdisj (hyx ▸ hy) hxdrop
    have hklen : (L.take k).length = k := by
      have hne : L.drop k ≠ [] := List.ne_nil_of_mem hxdrop
      have : k < L.length := by
        by_contra hk
        exact hne (List.drop_eq_nil_of_le (by omega))
      rw [List.length_take]
      omega
    rw [hcnt, htake, hklen] at hcount
    omega

/-- A strictly descending pair of naturals embeds in `range n` in ascending
order. -/
theorem pair_sublist_range {y x n : Nat} (hyx : y < x) (hxn : x < n) :
    [y, x] <+ List.range n := by
  have h1 : [y] ++ [x] <+ List.range x ++ [x] :=
    List.Sublist.append (List.singleton_sublist.mpr (List.mem_range.mpr hyx))
      (List.Sublist.refl [x])
  rw [← List.range_succ] at h1
  exact h1.trans (List.range_sublist.mpr hxn)

end SortedSelect

namespace data_intelligence_agent

/-- C9: the tabular `process_query` never mutates the dataset store; with no
dataset resolvable it returns the structured no-dataset error; and any
internal failure of a handler is caught and returned as a descriptive
"Failed to process query" message. -/
theorem C9_query_error_handling (storage : List (String × DataFrame))
    (current dataset_name : Option String) (query : String) :
    (process_query storage current query dataset_name).2 = storage ∧
    (resolve_dataset storage current dataset_name = none →
      (process_query storage current query dataset_name).1 =
        .error "No dataset loaded. Please upload a file first.") ∧
    (∀ df, resolve_dataset storage current dataset_name = some df →
      ∀ e, process_query_inner df query = .error e →
        (process_query storage current query dataset_name).1 =
          .error ("Failed to process query: " ++ e)) := by
  refine ⟨?_, ?_, ?_⟩
  · unfold process_query
    split
    · rfl
    · split <;> rfl
  · intro h
    unfold process_query
    split
    · rfl
    · rename_i df2 heq
      rw [h] at heq
      cases heq
  · intro df hdf e he
    unfold process_query
    split
    · rename_i heq
      rw [hdf] at heq
      cases heq
    · rename_i df2 heq
      rw [hdf] at heq
      cases heq
      split
      · rename_i r hr
        rw [he] at hr
        cases hr
      · rename_i e2 hr
        rw [he] at hr
        cases hr
        rfl

/-- Witness for C9: with an empty store and no current dataset, the query
returns the no-dataset error and the store is unchanged. -/
theorem C9_query_error_handling_witness :
    (process_query [] none "count rows" none).2 = ([] : List (String × DataFrame)) ∧
    (process_query [] none "count rows" none).1 =
      .error "No dataset loaded. Please upload a file first." :=
  ⟨(C9_query_error_handling [] none none "count rows").1,
   (C9_query_error_handling [] none none "count rows").2.1 (by decide)⟩

/-- C10: when the lowercased query contains a count keyword and none of the
aggregation keywords checked at higher priority, `process_query` returns the
dataset's total row count, whatever else the query mentions. -/
theorem C10_count_returns_row_count (storage : List (String × DataFrame))
    (current dataset_name : Option String) (query : String) (df : DataFrame)
    (hres : resolve_dataset storage current dataset_name = some df)
    (hcount : anyKw (pyLower query) count_kws = true)
    (hsum : anyKw (pyLower query) sum_kws = false)
    (hmean : anyKw (pyLower query) mean_kws = false)
    (hmax : anyKw (pyLower query) max_kws = false)
    (hmin : anyKw (pyLower query) min_kws = false) :
    (process_query storage current query dataset_name).1 =
      .countRecords df.nrows ("Total number of records: " ++ natCommas df.nrows) := by
  unfold process_query
  rw [hres]
  unfold process_query_inner
  simp only [hsum, hmean, hmax, hmin, hcount, Bool.false_eq_true, if_false, if_true]
  rfl

/-- Witness for C10: "count rows where Revenue is big" returns the row count
5 of the example dataset, ignoring the column and condition. -/
theorem C10_count_returns_row_count_witness :
    (anyKw (pyLower "count rows where Revenue is big") count_kws = true) ∧
    (process_query [("sales.csv", revenue_df)] (some "sales.csv")
        "count rows where Revenue is big" none).1 =
      .countRecords revenue_df.nrows ("Total number of records: " ++ natCommas revenue_df.nrows) :=
  ⟨by decide,
   C10_count_returns_row_count [("sales.csv", revenue_df)] (some "sales.csv") none
     "count rows where Revenue is big" revenue_df (by decide) (by decide) (by decide)
     (by decide) (by decide) (by decide)⟩

/-- C6: aggregation resolves the target as the first column whose lowercased
name occurs in the lowercased query; a numeric match gets the statistic
alone (with the formatted message), no match yields the statistic of every
numeric column; and on the example dataset, "what is the total Revenue"
computes sum 2955 with message value "2,955.00". -/
theorem C6_aggregation_query :
    (∀ (df : DataFrame) (query : String) (op : AggOp),
      ((∀ c ∈ df.columns, matchesColumn query c.1 = false) →
        handle_aggregation_query df query op =
          .allCols ((numeric_columns df).map (fun c => (c.1, aggValue op c.2)))
            (op.pyTitle ++ " values for all numeric columns")) ∧
      (∀ i, i < df.columns.length →
        matchesColumn query (df.columns.getD i ("", .text [])).1 = true →
        (∀ j, j < i → matchesColumn query (df.columns.getD j ("", .text [])).1 = false) →
        ∀ vs, (df.columns.getD i ("", .text [])).2 = .numeric vs →
          handle_aggregation_query df query op =
            .single (aggValue op vs)
              ("The " ++ op.pyName ++ " of " ++ (df.columns.getD i ("", .text [])).1 ++
                " is " ++ formatComma2 (aggValue op vs)))) ∧
    process_query [("sales.csv", revenue_df)] (some "sales.csv")
        "what is the total Revenue" none =
      (.aggregation (.single 2955 "The sum of Revenue is 2,955.00"),
       [("sales.csv", revenue_df)]) := by
  constructor
  · intro df query op
    constructor
    · intro hnone
      have hfind : find_target_column df query = none := by
        unfold find_target_column
        rw [List.find?_eq_none]
        intro c hc
        simp [hnone c hc]
      unfold handle_aggregation_query
      rw [hfind]
    · intro i hi hp hb vs hvs
      have hfind : find_target_column df query =
          some (df.columns.getD i ("", .text [])) := by
        unfold find_target_column
        exact find_first_match (fun c => matchesColumn query c.1) ("", .text [])
          df.columns i hi hp hb
      unfold handle_aggregation_query
      rw [hfind]
      obtain ⟨name, cd, hget⟩ : ∃ a b, df.columns.getD i ("", .text []) = (a, b) :=
        ⟨_, _, Prod.mk.eta.symm⟩
      rw [hget] at hvs ⊢
      simp only at hvs
      subst hvs
      rfl
  · decide

/-- Witness for C6: the example aggregation "what is the total Revenue"
resolves the Revenue column (first and only match) and yields sum 2955 with
the formatted message. -/
theorem C6_aggregation_query_witness :
    handle_aggregation_query revenue_df "what is the total Revenue" .sum =
      .single 2955 "The sum of Revenue is 2,955.00" := by
  have h := (C6_aggregation_query.1 revenue_df "what is the total Revenue" .sum).2 0
    (by decide) (by decide) (fun j hj => absurd hj (Nat.not_lt_zero j))
    [1200, 75, 400, 1200, 80] (by decide)
  exact h.trans (by decide)

theorem rankIdx_sorted_stable (vals : List ℚ) (ascending : Bool) :
    List.Perm (rankIdx vals ascending) (List.range vals.length) ∧
    (rankIdx vals ascending).Nodup ∧
    (rankIdx vals ascending).Pairwise
      (fun i j => rankOrder vals ascending i j ∧ (vals.getD i 0 = vals.getD j 0 → i < j)) := by
  have hperm : List.Perm (rankIdx vals ascending) (List.range vals.length) :=
    List.perm_insertionSort _ _
  have hnd : (rankIdx vals ascending).Nodup :=
    hperm.nodup_iff.mpr (List.nodup_range _)
  have hsort : (rankIdx vals ascending).Pairwise (rankOrder vals ascending) :=
    List.sorted_insertionSort _ _
  refine ⟨hperm, hnd, ?_⟩
  rw [List.pairwise_iff_forall_sublist]
  intro a b hsub
  have hr : rankOrder vals ascending a b := List.pairwise_iff_forall_sublist.mp hsort hsub
  have hne : a ≠ b := by
    have hp : ([a, b] : List Nat).Nodup := List.Nodup.sublist hsub hnd
    simpa using hp
  refine ⟨hr, ?_⟩
  intro htie
  rcases Nat.lt_trichotomy a b with h | h | h
  · exact h
  · exact absurd h hne
  · exfalso
    have han : a < vals.length := by
      have hm : a ∈ List.range vals.length := hperm.subset (hsub.subset (by simp))
      exact List.mem_range.mp hm
    have hrba : rankOrder vals ascending b a := by
      unfold rankOrder
      cases ascending
      · simp only [Bool.false_eq_true, if_false]
        exact le_of_eq htie
      · simp only [if_true]
        exact le_of_eq htie.symm
    have hsub2 : List.Sublist [b, a] (List.range vals.length) := pair_sublist_range h han
    have hsub2L : List.Sublist [b, a] (rankIdx vals ascending) := by
      unfold rankIdx
      exact List.pair_sublist_insertionSort hrba hsub2
    exact hne (pair_sublist_antisymm hnd hsub hsub2L)

/-- C7: the rows pandas `nlargest`/`nsmallest` semantics selects are exactly
the first `N` of the stable value-sorted row indices: the selection has
`min N rows` entries, all are valid row indices without duplicates, it is
ordered by the requested direction with ties in first-seen order, and every
selected row beats every unselected row (strictly, ties resolved toward the
earlier row); concretely, "top 3 by Revenue" on the example dataset returns
exactly the three rows 1200, 1200, 400 in descending order. -/
theorem C7_ranking_query_semantics :
    (∀ (vals : List ℚ) (ascending : Bool) (N : Nat),
      ((rankIdx vals ascending).take N).length = min N vals.length ∧
      (∀ i ∈ (rankIdx vals ascending).take N, i < vals.length) ∧
      ((rankIdx vals ascending).take N).Nodup ∧
      ((rankIdx vals ascending).take N).Pairwise
        (fun i j => rankOrder vals ascending i j ∧ (vals.getD i 0 = vals.getD j 0 → i < j)) ∧
      (∀ i ∈ (rankIdx vals ascending).take N, ∀ j, j < vals.length →
        j ∉ (rankIdx vals ascending).take N →
        rankOrder vals ascending i j ∧ (vals.getD i 0 = vals.getD j 0 → i < j))) ∧
    handle_ranking_query revenue_df "top 3 by Revenue" =
      .ok (.ranking
        [[("Revenue", .num 1200)], [("Revenue", .num 1200)], [("Revenue", .num 400)]]
        "Top 3 records by Revenue") := by
  constructor
  · intro vals ascending N
    obtain ⟨hperm, hnd, hS⟩ := rankIdx_sorted_stable vals ascending
    have hlenL : (rankIdx vals ascending).length = vals.length := by
      rw [hperm.length_eq, List.length_range]
    refine ⟨?_, ?_, ?_, ?_, ?_⟩
    · rw [List.length_take, hlenL]
    · intro i hi
      have hm : i ∈ List.range vals.length := hperm.subset (List.mem_of_mem_take hi)
      exact List.mem_range.mp hm
    · exact List.Nodup.sublist (List.take_sublist N _) hnd
    · exact List.Pairwise.sublist (List.take_sublist N _) hS
    · intro i hi j hjlt hjnot
      have hjL : j ∈ rankIdx vals ascending := hperm.mem_iff.mpr (List.mem_range.mpr hjlt)
      have hjdrop : j ∈ (rankIdx vals ascending).drop N := by
        rcases List.mem_append.mp
            ((List.take_append_drop N (rankIdx vals ascending)).symm ▸ hjL) with hcase | hcase
        · exact absurd hcase hjnot
        · exact hcase
      exact hS.rel_of_mem_take_of_mem_drop hi hjdrop
  · decide

/-- Witness for C7: on the Revenue example, descending top-3 selects three
rows, and the selected row 0 beats the unselected row 1. -/
theorem C7_ranking_query_semantics_witness :
    ((rankIdx [1200, 75, 400, 1200, 80] false).take 3).length =
      min 3 ([1200, 75, 400, 1200, 80] : List ℚ).length ∧
    (rankOrder [1200, 75, 400, 1200, 80] false 0 1 ∧
      (([1200, 75, 400, 1200, 80] : List ℚ).getD 0 0 =
        ([1200, 75, 400, 1200, 80] : List ℚ).getD 1 0 → 0 < 1)) :=
  have h := C7_ranking_query_semantics.1 [1200, 75, 400, 1200, 80] false 3
  ⟨h.1, h.2.2.2.2 0 (by decide) 1 (by decide) (by decide)⟩

end data_intelligence_agent

namespace research_assistant_agent

theorem pyGet_mem {l : List Chunk} {i : ℤ} {c : Chunk} (h : pyGet l i = some c) : c ∈ l := by
  unfold pyGet at h
  split at h
  · exact List.get?_mem h
  · split at h
    · exact List.get?_mem h
    · cases h

theorem collect_relevant_filter (doc_name : String) (chunks : List Chunk) :
    ∀ hits, collect_relevant_chunks doc_name chunks hits =
      collect_relevant_chunks doc_name chunks
        (hits.filter (fun p => decide (p.2 < (chunks.length : ℤ))))
  | [] => rfl
  | (score, idx) :: rest => by
    rw [List.filter_cons]
    by_cases h : idx < (chunks.length : ℤ)
    · rw [if_pos (by simpa using h)]
      conv_lhs => rw [collect_relevant_chunks]
      conv_rhs => rw [collect_relevant_chunks]
      rw [if_pos h, if_pos h, collect_relevant_filter doc_name chunks rest]
    · rw [if_neg (by simpa using h)]
      conv_lhs => rw [collect_relevant_chunks]
      rw [if_neg h]
      exact collect_relevant_filter doc_name chunks rest

theorem collect_relevant_mem (doc_name : String) (chunks : List Chunk) :
    ∀ hits out, collect_relevant_chunks doc_name chunks hits = some out →
      ∀ r ∈ out, ∃ c ∈ chunks, r.text = c.text ∧ r.chunk_id = c.chunk_id
  | [], out, h => by
    cases h
    simp
  | (score, idx) :: rest, out, h => by
    rw [collect_relevant_chunks] at h
    by_cases hlt : idx < (chunks.length : ℤ)
    · rw [if_pos hlt] at h
      cases hg : pyGet chunks idx with
      | none => rw [hg] at h; cases h
      | some ch =>
        rw [hg] at h
        cases hrec : collect_relevant_chunks doc_name chunks rest with
        | none => rw [hrec] at h; cases h
        | some tail =>
          rw [hrec] at h
          cases h
          intro r hr
          rcases List.mem_cons.mp hr with hr1 | hr2
          · subst hr1
            exact ⟨ch, pyGet_mem hg, rfl, rfl⟩
          · exact collect_relevant_mem doc_name chunks rest tail hrec r hr2
    · rw [if_neg hlt] at h
      exact collect_relevant_mem doc_name chunks rest out h

theorem collect_search_filter (doc_name title : String) (chunks : List Chunk) :
    ∀ hits, collect_search_results doc_name title chunks hits =
      collect_search_results doc_name title chunks
        (hits.filter (fun p => decide (p.2 < (chunks.length : ℤ))))
  | [] => rfl
  | (score, idx) :: rest => by
    rw [List.filter_cons]
    by_cases h : idx < (chunks.length : ℤ)
    · rw [if_pos (by simpa using h)]
      conv_lhs => rw [collect_search_results]
      conv_rhs => rw [collect_search_results]
      rw [if_pos h, if_pos h, collect_search_filter doc_name title chunks rest]
    · rw [if_neg (by simpa using h)]
      conv_lhs => rw [collect_search_results]
      rw [if_neg h]
      exact collect_search_filter doc_name title chunks rest

theorem collect_search_mem (doc_name title : String) (chunks : List Chunk) :
    ∀ hits out, collect_search_results doc_name title chunks hits = some out →
      ∀ r ∈ out, ∃ c ∈ chunks,
        r.text = String.mk (c.text.toList.take 200) ++ "..." ∧ r.chunk_id = c.chunk_id
  | [], out, h => by
    cases h
    simp
  | (score, idx) :: rest, out, h => by
    rw [collect_search_results] at h
    by_cases hlt : idx < (chunks.length : ℤ)
    · rw [if_pos hlt] at h
      cases hg : pyGet chunks idx with
      | none => rw [hg] at h; cases h
      | some ch =>
        rw [hg] at h
        cases hrec : collect_search_results doc_name title chunks rest with
        | none => rw [hrec] at h; cases h
        | some tail =>
          rw [hrec] at h
          cases h
          intro r hr
          rcases List.mem_cons.mp hr with hr1 | hr2
          · subst hr1
            exact ⟨ch, pyGet_mem hg, rfl, rfl⟩
          · exact collect_search_mem doc_name title chunks rest tail hrec r hr2
    · rw [if_neg hlt] at h
      exact collect_search_mem doc_name title chunks rest out h

/-- C3: in both `answer_question` and `search_documents`, every FAISS hit
whose index is at least the chunk count is discarded (the retrieval loop
equals the same loop run on the pre-filtered hit list), and every produced
result comes from an element of the document's chunk list. -/
theorem C3_retrieval_bounds_guard (doc_name title : String) (chunks : List Chunk)
    (hits : List (ℚ × ℤ)) :
    (collect_relevant_chunks doc_name chunks hits =
      collect_relevant_chunks doc_name chunks
        (hits.filter (fun p => decide (p.2 < (chunks.length : ℤ))))) ∧
    (∀ out, collect_relevant_chunks doc_name chunks hits = some out →
      ∀ r ∈ out, ∃ c ∈ chunks, r.text = c.text ∧ r.chunk_id = c.chunk_id) ∧
    (collect_search_results doc_name title chunks hits =
      collect_search_results doc_name title chunks
        (hits.filter (fun p => decide (p.2 < (chunks.length : ℤ))))) ∧
    (∀ out, collect_search_results doc_name title chunks hits = some out →
      ∀ r ∈ out, ∃ c ∈ chunks,
        r.text = String.mk (c.text.toList.take 200) ++ "..." ∧ r.chunk_id = c.chunk_id) :=
  ⟨collect_relevant_filter doc_name chunks hits,
   collect_relevant_mem doc_name chunks hits,
   collect_search_filter doc_name title chunks hits,
   collect_search_mem doc_name title chunks hits⟩

/-- Witness for C3: two chunks, three hits of which the middle one has index
5 ≥ 2 and is discarded; both produced results come from the chunk list. -/
theorem C3_retrieval_bounds_guard_witness :
    (collect_relevant_chunks "doc.pdf" [⟨"c0", 0, 1⟩, ⟨"c1", 1, 1⟩]
        [(9/10, 0), (1/2, 5), (3/10, 1)] =
      collect_relevant_chunks "doc.pdf" [⟨"c0", 0, 1⟩, ⟨"c1", 1, 1⟩]
        ([((9 : ℚ)/10, (0 : ℤ)), (1/2, 5), (3/10, 1)].filter
          (fun p => decide (p.2 < (([⟨"c0", 0, 1⟩, ⟨"c1", 1, 1⟩] : List Chunk).length : ℤ))))) ∧
    (∀ r ∈ [RetrievedChunk.mk "c0" (9/10) 0 "doc.pdf", RetrievedChunk.mk "c1" (3/10) 1 "doc.pdf"],
      ∃ c ∈ ([⟨"c0", 0, 1⟩, ⟨"c1", 1, 1⟩] : List Chunk),
        r.text = c.text ∧ r.chunk_id = c.chunk_id) :=
  have h := C3_retrieval_bounds_guard "doc.pdf" "t" [⟨"c0", 0, 1⟩, ⟨"c1", 1, 1⟩]
    [(9/10, 0), (1/2, 5), (3/10, 1)]
  ⟨h.1, h.2.1 _ (by decide)⟩

theorem splitStep_preserves (cs ov : Nat) (st : SplitAcc) (s : String)
    (h2 : st.cur_overlap ≤ st.current_sentences.length) :
    (splitStep cs ov st s).current_chunk ≠ "" ∧
    (splitStep cs ov st s).cur_overlap ≤ (splitStep cs ov st s).current_sentences.length := by
  unfold splitStep
  have hsp : (" " : String).length = 1 := rfl
  have hnil : ("" : String).length = 0 := rfl
  by_cases h : st.current_chunk.length + s.length < cs
  · rw [if_pos h]
    refine ⟨?_, ?_⟩
    · intro hc
      have hlen := congrArg String.length hc
      rw [String.length_append, String.length_append] at hlen
      omega
    · simp only [List.length_append, List.length_cons, List.length_nil]
      omega
  · rw [if_neg h]
    refine ⟨?_, ?_⟩
    · intro hc
      have hlen := congrArg String.length hc
      rw [String.length_append, String.length_append] at hlen
      omega
    · simp only [List.length_append, List.length_cons, List.length_nil]
      omega

theorem closeChunk_flatten (st : SplitAcc)
    (h1 : st.current_chunk = "" → st.current_sentences = []) :
    ((closeChunk st).map (fun g => g.sentences.drop g.overlap_count)).flatten =
      reconstruct st := by
  unfold closeChunk reconstruct
  by_cases h : st.current_chunk = ""
  · rw [if_pos h, h1 h]
    simp
  · rw [if_neg h]
    simp

theorem reconstruct_splitStep (cs ov : Nat) (st : SplitAcc) (s : String)
    (h2 : st.cur_overlap ≤ st.current_sentences.length) :
    reconstruct (splitStep cs ov st s) =
      ((closeChunk st).map (fun g => g.sentences.drop g.overlap_count)).flatten ++ [s] ∨
    reconstruct (splitStep cs ov st s) = reconstruct st ++ [s] := by
  unfold splitStep
  by_cases h : st.current_chunk.length + s.length < cs
  · right
    rw [if_pos h]
    unfold reconstruct
    simp only
    rw [List.drop_append_of_le_length h2, List.append_assoc]
  · left
    rw [if_neg h]
    unfold reconstruct
    simp only
    rw [List.drop_left]

theorem foldl_reconstruct (cs ov : Nat) :
    ∀ (sentences : List String) (st : SplitAcc),
      (st.current_chunk = "" → st.current_sentences = []) →
      st.cur_overlap ≤ st.current_sentences.length →
      ((closeChunk (sentences.foldl (splitStep cs ov) st)).map
        (fun g => g.sentences.drop g.overlap_count)).flatten =
      reconstruct st ++ sentences
  | [], st, h1, _ => by
    rw [List.foldl_nil, closeChunk_flatten st h1, List.append_nil]
  | s :: rest, st, h1, h2 => by
    rw [List.foldl_cons]
    have hpres := splitStep_preserves cs ov st s h2
    rw [foldl_reconstruct cs ov rest (splitStep cs ov st s)
      (fun hc => absurd hc hpres.1) hpres.2]
    rcases reconstruct_splitStep cs ov st s h2 with hstep | hstep
    · rw [hstep, closeChunk_flatten st h1]
      simp
    · rw [hstep]
      simp

/-- C8: chunk splitting is a deterministic function of the sentence
sequence, and it loses nothing: concatenating the chunks' sentence lists
with each chunk's leading overlap sentences removed reconstructs the
document's full sentence sequence, for every chunk-size and overlap
parameter. -/
theorem C8_chunking_covers_sentences (sentences : List String) (chunk_size overlap : Nat) :
    ((split_into_chunks sentences chunk_size overlap).map
      (fun g => g.sentences.drop g.overlap_count)).flatten = sentences := by
  unfold split_into_chunks
  rw [foldl_reconstruct chunk_size overlap sentences ⟨[], "", [], 0⟩ (fun _ => rfl) (by simp)]
  simp [reconstruct]

theorem scoredTuples_mem {sentences : List String} {t : Nat × Nat × String}
    (h : t ∈ scoredTuples sentences) :
    t = scoreTuple sentences t.2.1 ∧ t.2.1 < sentences.length := by
  unfold scoredTuples at h
  rcases List.mem_map.mp h with ⟨i, hi, rfl⟩
  exact ⟨rfl, List.mem_range.mp hi⟩

theorem scoreTuple_injective (sentences : List String) :
    Function.Injective (scoreTuple sentences) := by
  intro i j h
  exact congrArg (fun t => t.2.1) h

theorem scoredTuples_nodup (sentences : List String) : (scoredTuples sentences).Nodup := by
  unfold scoredTuples
  exact List.Nodup.map (scoreTuple_injective sentences) (List.nodup_range _)

theorem scoredTuples_anti (sentences : List String) :
    ∀ x ∈ scoredTuples sentences, ∀ y ∈ scoredTuples sentences,
      summaryOrder x y → summaryOrder y x → x = y := by
  intro x hx y hy hxy hyx
  obtain ⟨hxe, _⟩ := scoredTuples_mem hx
  obtain ⟨hye, _⟩ := scoredTuples_mem hy
  have hidx : x.2.1 = y.2.1 := by
    unfold summaryOrder at hxy hyx
    omega
  rw [hxe, hye, hidx]

theorem scoresOf_getD {sentences : List String} {j : Nat} (hj : j < sentences.length) :
    (scoresOf sentences).getD j 0 =
      sentenceScore sentences.length j (sentences.getD j "") := by
  unfold scoresOf
  have hlen2 : j < (List.map
      (fun i => sentenceScore sentences.length i (sentences.getD i ""))
      (List.range sentences.length)).length := by
    rw [List.length_map, List.length_range]
    exact hj
  rw [List.getD_eq_getElem _ _ hlen2, List.getElem_map, List.getElem_range]

theorem scoresOf_length (sentences : List String) :
    (scoresOf sentences).length = sentences.length := by
  unfold scoresOf
  simp

theorem rank_count_eq (sentences : List String) (i : Nat) (hi : i < sentences.length) :
    ((scoredTuples sentences).filter
      (fun y => decide (summaryOrder y (scoreTuple sentences i) ∧
        y ≠ scoreTuple sentences i))).length =
    ((List.range sentences.length).filter
      (fun j => laterBeats (scoresOf sentences) j i)).length := by
  unfold scoredTuples
  rw [List.filter_map, List.length_map]
  congr 1
  apply List.filter_congr
  intro j hj
  have hjlt := List.mem_range.mp hj
  show decide (summaryOrder (scoreTuple sentences j) (scoreTuple sentences i) ∧
      scoreTuple sentences j ≠ scoreTuple sentences i) =
    laterBeats (scoresOf sentences) j i
  unfold laterBeats
  rw [decide_eq_decide]
  have hne_iff : (scoreTuple sentences j ≠ scoreTuple sentences i) ↔ j ≠ i := by
    constructor
    · intro h hji
      exact h (by rw [hji])
    · intro h hts
      exact h (scoreTuple_injective sentences hts)
  rw [hne_iff, scoresOf_getD hjlt, scoresOf_getD hi]
  unfold summaryOrder scoreTuple
  simp only []
  constructor
  · rintro ⟨hord, hne⟩
    rcases hord with h | ⟨heq, hle⟩
    · exact Or.inl h
    · exact Or.inr ⟨heq, lt_of_le_of_ne hle (Ne.symm hne)⟩
  · rintro (h | ⟨heq, hlt⟩)
    · refine ⟨Or.inl h, ?_⟩
      intro hji
      subst hji
      exact lt_irrefl _ h
    · exact ⟨Or.inr ⟨heq, le_of_lt hlt⟩, by omega⟩

theorem summary_selection_eq (sentences : List String) (k : Nat)
    (l L A ordered : List (Nat × Nat × String))
    (hl : l = scoredTuples sentences)
    (hL : L = l.insertionSort summaryOrder)
    (hA : A = L.take k)
    (hO : ordered = A.insertionSort idxOrder) :
    ordered.map (fun t => t.2.2) =
      (summaryTopIdx (scoresOf sentences) k).map (fun i => sentences.getD i "") := by
  have hperm : List.Perm L l := by
    rw [hL]
    exact List.perm_insertionSort _ _
  have hsort : L.Pairwise summaryOrder := by
    rw [hL]
    exact List.sorted_insertionSort _ _
  have hnd : l.Nodup := by
    rw [hl]
    exact scoredTuples_nodup sentences
  have hanti : ∀ x ∈ l, ∀ y ∈ l, summaryOrder x y → summaryOrder y x → x = y := by
    rw [hl]
    exact scoredTuples_anti sentences
  have hordperm : List.Perm ordered A := by
    rw [hO]
    exact List.perm_insertionSort _ _
  have hordsort : ordered.Pairwise idxOrder := by
    rw [hO]
    exact List.sorted_insertionSort _ _
  have hLnd : L.Nodup := hperm.nodup_iff.mpr hnd
  have hAnd : A.Nodup := by
    rw [hA]
    exact List.Nodup.sublist (List.take_sublist k L) hLnd
  have hordnd : ordered.Nodup := hordperm.nodup_iff.mpr hAnd
  have hmem_l : ∀ t ∈ ordered, t ∈ l := by
    intro t ht
    have h1 : t ∈ A := hordperm.mem_iff.mp ht
    rw [hA] at h1
    exact hperm.mem_iff.mp (List.mem_of_mem_take h1)
  have htake_iff : ∀ t ∈ l,
      (t ∈ A ↔ (l.filter (fun y => decide (summaryOrder y t ∧ y ≠ t))).length < k) := by
    intro t ht
    rw [hA]
    exact mem_take_sorted_iff l L k hperm hsort hnd hanti t ht
  have hmem2 : ∀ i : Nat, i ∈ ordered.map (fun t => t.2.1) ↔
      i ∈ summaryTopIdx (scoresOf sentences) k := by
    intro i
    constructor
    · intro him
      rcases List.mem_map.mp him with ⟨t, ht, rfl⟩
      have htl : t ∈ l := hmem_l t ht
      have htl2 : t ∈ scoredTuples sentences := by
        rw [← hl]
        exact htl
      obtain ⟨hteq, htlt⟩ := scoredTuples_mem htl2
      unfold summaryTopIdx
      rw [scoresOf_length]
      refine List.mem_filter.mpr ⟨List.mem_range.mpr htlt, ?_⟩
      rw [decide_eq_true_eq, ← rank_count_eq sentences t.2.1 htlt]
      have hcnt := (htake_iff t htl).mp (hordperm.mem_iff.mp ht)
      rw [hl] at hcnt
      rwa [← hteq]
    · intro him
      unfold summaryTopIdx at him
      rw [scoresOf_length] at him
      obtain ⟨hrange, hcnt⟩ := List.mem_filter.mp him
      have hilt := List.mem_range.mp hrange
      rw [decide_eq_true_eq] at hcnt
      rw [← rank_count_eq sentences i hilt] at hcnt
      have htl : scoreTuple sentences i ∈ l := by
        rw [hl]
        unfold scoredTuples
        exact List.mem_map.mpr ⟨i, List.mem_range.mpr hilt, rfl⟩
      have hAmem : scoreTuple sentences i ∈ A :=
        (htake_iff _ htl).mpr (by rw [hl]; exact hcnt)
      exact List.mem_map.mpr ⟨scoreTuple sentences i, hordperm.mem_iff.mpr hAmem, rfl⟩
  have hstrict1 : (ordered.map (fun t => t.2.1)).Pairwise (fun a b => a < b) := by
    rw [List.pairwise_map]
    refine List.Pairwise.imp_of_mem ?_ (List.Pairwise.and hordsort hordnd)
    intro a b ha hb hab
    have hal : a ∈ scoredTuples sentences := by
      rw [← hl]
      exact hmem_l a ha
    have hbl : b ∈ scoredTuples sentences := by
      rw [← hl]
      exact hmem_l b hb
    obtain ⟨hae, _⟩ := scoredTuples_mem hal
    obtain ⟨hbe, _⟩ := scoredTuples_mem hbl
    have hne : a.2.1 ≠ b.2.1 := fun he => hab.2 (by rw [hae, hbe, he])
    exact lt_of_le_of_ne hab.1 hne
  have hstrict2 : (summaryTopIdx (scoresOf sentences) k).Pairwise (fun a b => a < b) := by
    unfold summaryTopIdx
    exact List.Pairwise.filter _ (List.pairwise_lt_range _)
  have hnd1 : (ordered.map (fun t => t.2.1)).Nodup :=
    hstrict1.imp (fun h => Nat.ne_of_lt h)
  have hnd2 : (summaryTopIdx (scoresOf sentences) k).Nodup :=
    hstrict2.imp (fun h => Nat.ne_of_lt h)
  have hpm := (List.perm_ext_iff_of_nodup hnd1 hnd2).mpr hmem2
  haveI : IsAntisymm Nat (fun a b => a < b) :=
    ⟨fun a b h1 h2 => absurd h2 (Nat.lt_asymm h1)⟩
  have heq : ordered.map (fun t => t.2.1) = summaryTopIdx (scoresOf sentences) k :=
    List.eq_of_perm_of_sorted hpm hstrict1 hstrict2
  have hmm : ordered.map (fun t => t.2.2) =
      (ordered.map (fun t => t.2.1)).map (fun i => sentences.getD i "") := by
    rw [List.map_map]
    apply List.map_congr_left
    intro t ht
    have htl : t ∈ scoredTuples sentences := by
      rw [← hl]
      exact hmem_l t ht
    obtain ⟨hteq, _⟩ := scoredTuples_mem htl
    show t.2.2 = sentences.getD t.2.1 ""
    conv_lhs => rw [hteq]
    rfl
  rw [hmm, heq]

/-- C1 (amended): with at most three sentences `_generate_summary` returns
the text unchanged; with more, it returns the space-joined selection, in
original document order, of the three best-ranked sentences, where the rank
of a sentence counts the sentences with a higher score or an equal score
and a LATER position — Python's `sort(reverse=True)` on (score, index)
tuples puts the larger index first among equal scores, so ties favor the
later-positioned sentence, not the earlier one as claimed.  The positional
score bonuses test the index against `n * 0.3` and `n * 0.7` computed in
binary64 (`sentenceScore`), which differs from the claim's exact "first
30% / last 30%" reading at, e.g., `n = 90`, where index 63 receives the
last-30% bonus because `90 * 0.7` rounds to `62.99999999999999`. -/
theorem C1_generate_summary_amended (text : String) (sentences : List String) :
    (sentences.length ≤ 3 → generate_summary text sentences 3 = text) ∧
    (3 < sentences.length →
      generate_summary text sentences 3 =
        String.intercalate " "
          ((summaryTopIdx (scoresOf sentences) 3).map (fun i => sentences.getD i ""))) := by
  constructor
  · intro h
    unfold generate_summary
    rw [if_pos h]
  · intro hlen
    unfold generate_summary
    rw [if_neg (by omega)]
    exact congrArg (String.intercalate " ")
      (summary_selection_eq sentences 3 (scoredTuples sentences)
        ((scoredTuples sentences).insertionSort summaryOrder)
        (((scoredTuples sentences).insertionSort summaryOrder).take 3)
        ((((scoredTuples sentences).insertionSort summaryOrder).take 3).insertionSort idxOrder)
        rfl rfl rfl rfl)

/-- Witness for C1: the fourteen-sentence example exceeds three sentences,
and the summary equals the reference selection. -/
theorem C1_generate_summary_amended_witness :
    3 < summary_sentences.length ∧
    generate_summary "T" summary_sentences 3 =
      String.intercalate " "
        ((summaryTopIdx (scoresOf summary_sentences) 3).map
          (fun i => summary_sentences.getD i "")) :=
  ⟨by decide, (C1_generate_summary_amended "T" summary_sentences).2 (by decide)⟩

set_option maxRecDepth 8000 in
/-- C1 counterexample: on fourteen short sentences, indices 0-4 all tie at
the top score, and the summary selects sentences 2, 3 and 4 — the
later-positioned tied sentences — not sentences 0, 1 and 2 as the claimed
earlier-position tie-break would produce. -/
theorem C1_counterexample_earlier_tiebreak :
    generate_summary "T" summary_sentences 3 = "S2. S3. S4." ∧
    generate_summary "T" summary_sentences 3 ≠ "S0. S1. S2." := by
  decide

end research_assistant_agent

end MultiAgent
